import Mathlib

/-!
Shallow embedding of the ACME task orchestration engine of the GoedgeCDN
repository (package `acme`, file holding `ACMETaskDAO`), together with the
pieces of serving configuration it touches.  Go machine integers (`int64`)
are modelled as `Int`; unix timestamps as `Nat`; database rows as Lean
structures; the database as explicit state threaded through the operations.
External collaborators (the ACME client, DNS providers, the storage layer's
error behaviour) are modelled by an environment record whose fields carry
the outcome of each external call.  Storage writes whose errors the source
only logs (without changing control flow) are modelled as applied.
-/

namespace GoedgeACME

/-- Task state constants, from the `const` block of the source. -/
def ACMETaskStateEnabled : Int := 1

/-- Disabled task state constant. -/
def ACMETaskStateDisabled : Int := 0

/-- Task status constant: pending. -/
def ACMETaskStatusPending : Int := 0

/-- Task status constant: done. -/
def ACMETaskStatusDone : Int := 1

/-- Task status constant: running. -/
def ACMETaskStatusRunning : Int := 2

/-- Task status constant: issue failed. -/
def ACMETaskStatusIssueFailed : Int := 3

/-- Validation type of a task (`acmeutils.AuthType`): DNS-01 or HTTP-01. -/
inductive AuthType where
  | dns
  | http
deriving DecidableEq, Repr

/-- Row of the `edgeACMETasks` table, with the columns the engine reads or
writes.  `domains` models the JSON `domains` column: `some l` is the JSON
encoding of the list `l` (`some []` is the literal text of an empty JSON
array), `none` would be SQL NULL.  `createdAt` is a unix timestamp. -/
structure ACMETask where
  id : Int
  adminId : Int
  userId : Int
  authType : AuthType
  acmeUserId : Int
  dnsProviderId : Int
  dnsDomain : String
  domains : Option (List String)
  autoRenew : Bool
  authURL : String
  isOn : Bool
  state : Int
  status : Int
  certId : Int
  async : Bool
  createdAt : Nat
deriving DecidableEq, Repr

/-- Row of the SSL certificate table, with the columns the engine touches.
Certificate/key PEM material is not modelled (it is opaque to the engine);
`acmeTaskId` is the back-reference written by `UpdateCertACME`. -/
structure SSLCert where
  id : Int
  isOn : Bool
  name : String
  description : String
  serverName : String
  isCA : Bool
  timeBeginAt : Int
  timeEndAt : Int
  dnsNames : List String
  commonNames : List String
  state : Int
  acmeTaskId : Int
deriving DecidableEq, Repr

/-- Entry appended by `SharedACMETaskLogDAO.CreateACMETaskLog`. -/
structure TaskLogEntry where
  taskId : Int
  isOk : Bool
  errMsg : String
deriving DecidableEq, Repr

/-- Element of a TLS policy's certificate reference list
(`sslconfigs.SSLCertRef`). -/
structure SSLCertRef where
  isOn : Bool
  certId : Int
deriving DecidableEq, Repr

/-- Row of the SSL policy table, with the settings forwarded by the binding
merger's `UpdatePolicy` call.  `hsts` and `clientCACerts` carry the raw JSON
bytes of those columns, opaque to the engine. -/
structure SSLPolicyRec where
  id : Int
  http2Enabled : Bool
  http3Enabled : Bool
  minVersion : String
  certRefs : List SSLCertRef
  hsts : String
  ocspIsOn : Int
  clientAuthType : Int
  clientCACerts : String
  cipherSuitesIsOn : Int
  cipherSuites : List String
deriving DecidableEq, Repr

/-- Reference from a server's HTTPS config to its SSL policy
(`sslconfigs.SSLPolicyRef`). -/
structure SSLPolicyRefCfg where
  isOn : Bool
  sslPolicyId : Int
deriving DecidableEq, Repr

/-- HTTPS protocol config of a server (`serverconfigs.HTTPSProtocolConfig`),
reduced to the only field the binding merger reads or writes. -/
structure HTTPSCfg where
  sslPolicyRef : Option SSLPolicyRefCfg
deriving DecidableEq, Repr

/-- Server row: id, owner, decoded `plainServerNames`, and the decoded HTTPS
config (`none` models a server without any HTTPS configuration, for which
`DecodeHTTPS` yields nil). -/
structure ServerRec where
  id : Int
  userId : Int
  serverNames : List String
  https : Option HTTPSCfg
deriving DecidableEq, Repr

/-- Persistent state threaded through the engine: the task, certificate,
policy and server tables, the task log, and the auto-increment counters for
fresh certificate / policy / task ids. -/
structure EngineState where
  tasks : List ACMETask
  certs : List SSLCert
  policies : List SSLPolicyRec
  servers : List ServerRec
  taskLogs : List TaskLogEntry
  nextTaskId : Int
  nextCertId : Int
  nextPolicyId : Int
deriving DecidableEq, Repr

/-- Selection predicate of `FindEnabledACMETask`: primary key plus
`state = enabled`. -/
def taskMatches (id : Int) (t : ACMETask) : Bool :=
  t.id == id && t.state == ACMETaskStateEnabled

/-- FindEnabledACMETask: look the task up by primary key among enabled rows. -/
def findEnabledACMETask (st : EngineState) (id : Int) : Option ACMETask :=
  st.tasks.find? (taskMatches id)

/-- Selection predicate of `FindEnabledSSLCert`. -/
def certMatches (id : Int) (c : SSLCert) : Bool :=
  c.id == id && c.state == ACMETaskStateEnabled

/-- FindEnabledSSLCert: look a certificate up by primary key among enabled
rows. -/
def findEnabledSSLCert (st : EngineState) (id : Int) : Option SSLCert :=
  st.certs.find? (certMatches id)

/-- Update every task row with the given primary key by `f` (the `Query(tx)
.Pk(id) ... Update()` pattern; no state filter). -/
def mapTask (id : Int) (f : ACMETask → ACMETask) (st : EngineState) : EngineState :=
  { st with tasks := st.tasks.map (fun t => if t.id == id then f t else t) }

/-- UpdateStatus: set the `status` column of the task. -/
def updateTaskStatus (st : EngineState) (id : Int) (s : Int) : EngineState :=
  mapTask id (fun t => { t with status := s }) st

/-- UpdateACMETaskCert: set the `certId` column of the task. -/
def setTaskCert (st : EngineState) (id : Int) (c : Int) : EngineState :=
  mapTask id (fun t => { t with certId := c }) st

/-- DisableACMETask: set the `state` column of the task to disabled. -/
def disableTask (st : EngineState) (id : Int) : EngineState :=
  mapTask id (fun t => { t with state := ACMETaskStateDisabled }) st

/-- DisableSSLCert: set the `state` column of the certificate to disabled. -/
def disableCert (st : EngineState) (id : Int) : EngineState :=
  { st with certs := st.certs.map (fun c =>
      if c.id == id then { c with state := ACMETaskStateDisabled } else c) }

/-- CreateACMETaskLog: append one execution log row.  A database error here
is only written to the operational log in the source, so the append is
modelled as applied. -/
def appendTaskLog (st : EngineState) (taskId : Int) (isOk : Bool) (errMsg : String) : EngineState :=
  { st with taskLogs := st.taskLogs ++ [⟨taskId, isOk, errMsg⟩] }

/-- Row of the ACME user (account) table, with the fields `runTaskWithoutLog`
reads. -/
structure ACMEUserRec where
  id : Int
  email : String
  privateKey : String
  registration : String
  providerCode : String
  accountId : Int
deriving DecidableEq, Repr

/-- Row of the DNS provider table, with the fields the dispatcher reads. -/
structure DNSProviderRec where
  id : Int
  typeCode : String
  minTTL : Int
deriving DecidableEq, Repr

/-- Validity window and covered names extracted from the issued material by
`sslConfig.Init` (external certificate parsing collaborator). -/
structure CertParseInfo where
  timeBeginAt : Int
  timeEndAt : Int
  dnsNames : List String
  commonNames : List String
deriving DecidableEq, Repr

/-- Default CA provider code substituted when the account has none
(`acmeutils.DefaultProviderCode`). -/
def acmeDefaultProviderCode : String := "letsencrypt"

/-- Outcomes of the external and fallible storage calls made during one run.
`some e` in an `...Err` field means the corresponding call fails with
message `e`; lookups that can also come back empty carry an `Option` value.
Function-typed fields answer registry lookups keyed by provider code. -/
structure RunEnv where
  findTaskErr : Option String
  findUser : Except String (Option ACMEUserRec)
  randomUser : Option ACMEUserRec
  providerExists : String → Bool
  findProviderAccountErr : Option String
  parseKeyErr : Option String
  setRegistrationErr : Option String
  findDNSProviderErr : Option String
  dnsProvider : Option DNSProviderRec
  dnsClientExists : String → Bool
  decodeAPIParamsErr : Option String
  dnsAuthErr : Option String
  acmeRunErr : Option String
  certParse : Except String CertParseInfo
  findBoundCertErr : Option String
  disableTaskErr : Option String
  updateCertErr : Option String
  createCertErr : Option String
  updateCertACMEErr : Option String
  updateTaskCertErr : Option String
  findNewCertErr : Option String

/-- Result quadruple of `runTaskWithoutLog` / `RunTask`: the state after the
run plus the named return values `(isOk, errMsg, resultCertId)`. -/
structure RunResult where
  state : EngineState
  isOk : Bool
  errMsg : String
  certId : Int
deriving Repr

/-- Challenge-dispatcher setup for the DNS-01 branch (the `task.AuthType ==
AuthTypeDNS` arm of `runTaskWithoutLog`): provider row lookup, client
construction, parameter decoding and authentication.  Returns the error
message of the first failing step, or `none` when setup succeeds (the
HTTP-01 arm needs no provider resolution). -/
def dnsSetupError (env : RunEnv) (task : ACMETask) : Option String :=
  match task.authType with
  | .http => none
  | .dns =>
    match env.findDNSProviderErr with
    | some e => some ("查找DNS服务商账号信息时出错：" ++ e)
    | none =>
      match env.dnsProvider with
      | none => some "找不到DNS服务商账号"
      | some p =>
        if !env.dnsClientExists p.typeCode then
          some ("暂不支持此类型的DNS服务商 " ++ p.typeCode)
        else
          match env.decodeAPIParamsErr with
          | some e => some ("解析DNS服务商API参数时出错：" ++ e)
          | none =>
            match env.dnsAuthErr with
            | some e => some ("校验DNS服务商API参数时出错：" ++ e)
            | none => none

/-- UpdateCert on the renewal path: write new validity window and covered
names into the bound certificate row (name, description, server name, CA
flag and on/off flag are passed back unchanged from the loaded row). -/
def updateCertValidity (st : EngineState) (id : Int) (info : CertParseInfo) : EngineState :=
  { st with certs := st.certs.map (fun c =>
      if c.id == id then
        { c with timeBeginAt := info.timeBeginAt, timeEndAt := info.timeEndAt,
                 dnsNames := info.dnsNames, commonNames := info.commonNames }
      else c) }

/-- CreateCert on the first-issuance path: append a fresh enabled
certificate row with the arguments of the source call site. -/
def createCertRow (st : EngineState) (task : ACMETask) (info : CertParseInfo) : EngineState :=
  { st with
      certs := st.certs ++ [{
        id := st.nextCertId, isOn := true,
        name := task.dnsDomain ++ "免费证书", description := "免费申请的证书",
        serverName := "", isCA := false,
        timeBeginAt := info.timeBeginAt, timeEndAt := info.timeEndAt,
        dnsNames := info.dnsNames, commonNames := info.commonNames,
        state := ACMETaskStateEnabled, acmeTaskId := 0 }],
      nextCertId := st.nextCertId + 1 }

/-- UpdateCertACME: write the originating task id into the certificate row. -/
def updateCertACME (st : EngineState) (certId : Int) (taskId : Int) : EngineState :=
  { st with certs := st.certs.map (fun c =>
      if c.id == certId then { c with acmeTaskId := taskId } else c) }

/-- Renewal arm of the save step (lines 519-541, `resultCertId > 0`): look
the bound certificate up again; when it was deleted out-of-band, disable the
task and report the removal; otherwise rewrite the certificate row in place.
All failure returns carry `resultCertId = task.certId`, already assigned to
the named return value at this point in the source. -/
def saveCertRenewal (env : RunEnv) (st : EngineState) (taskId : Int) (task : ACMETask)
    (info : CertParseInfo) : RunResult :=
  match env.findBoundCertErr with
  | some e => ⟨st, false, "证书生成成功，但查询已绑定的证书时出错：" ++ e, task.certId⟩
  | none =>
  match findEnabledSSLCert st task.certId with
  | none =>
    match env.disableTaskErr with
    | none => ⟨disableTask st taskId, false, "证书已被管理员或用户删除", task.certId⟩
    | some e => ⟨st, false, "禁用失效的ACME任务出错：" ++ e, task.certId⟩
  | some _ =>
    match env.updateCertErr with
    | some e => ⟨st, false, "证书生成成功，但是修改数据库中的证书信息时出错：" ++ e, task.certId⟩
    | none => ⟨updateCertValidity st task.certId info, true, "", task.certId⟩

/-- First-issuance arm of the save step (lines 542-561, `resultCertId = 0`):
create the certificate row, link the task into it, and bind its id to the
task. -/
def saveCertNew (env : RunEnv) (st : EngineState) (taskId : Int) (task : ACMETask)
    (info : CertParseInfo) : RunResult :=
  match env.createCertErr with
  | some e => ⟨st, false, "证书生成成功，但是保存到数据库失败：" ++ e, 0⟩
  | none =>
  let newId := st.nextCertId
  let st1 := createCertRow st task info
  match env.updateCertACMEErr with
  | some e => ⟨st1, false, "证书生成成功，修改证书ACME信息时出错：" ++ e, newId⟩
  | none =>
  let st2 := updateCertACME st1 newId task.id
  match env.updateTaskCertErr with
  | some e => ⟨st2, false, "证书生成成功，设置任务关联的证书时出错：" ++ e, newId⟩
  | none => ⟨setTaskCert st2 taskId newId, true, "", newId⟩

/-- Embedding of `runTaskWithoutLog(tx, taskId, randomAcmeAccount)`: the
guard-clause sequence of the source, each guard returning the source's
error message.  The `UpdateStatus(Running)` write happens before any
external call; its database error is only logged in the source, so it is
modelled as applied. -/
def runTaskWithoutLog (env : RunEnv) (st0 : EngineState) (taskId : Int)
    (randomAcmeAccount : Bool) : RunResult :=
  match env.findTaskErr with
  | some e => ⟨st0, false, "查询任务信息时出错：" ++ e, 0⟩
  | none =>
  match findEnabledACMETask st0 taskId with
  | none => ⟨st0, false, "找不到要执行的任务", 0⟩
  | some task =>
  if !task.isOn then ⟨st0, false, "任务没有启用", 0⟩
  else if task.status == ACMETaskStatusDone then ⟨st0, false, "任务已完成", 0⟩
  else
  let st := updateTaskStatus st0 taskId ACMETaskStatusRunning
  match env.findUser with
  | .error e => ⟨st, false, "查询ACME用户时出错：" ++ e, 0⟩
  | .ok none => ⟨st, false, "找不到ACME用户", 0⟩
  | .ok (some user0) =>
  let user1 := if user0.providerCode.length == 0 then
      { user0 with providerCode := acmeDefaultProviderCode } else user0
  match (if randomAcmeAccount then env.randomUser else some user1) with
  | none => ⟨st, false, "找不到ACME用户", 0⟩
  | some user =>
  if !env.providerExists user.providerCode then ⟨st, false, "服务商已不可用", 0⟩
  else
  match (if user.accountId > 0 then env.findProviderAccountErr else none) with
  | some e => ⟨st, false, "查询ACME账号时出错：" ++ e, 0⟩
  | none =>
  match env.parseKeyErr with
  | some e => ⟨st, false, "解析私钥时出错：" ++ e, 0⟩
  | none =>
  match (if user.registration.length > 0 then env.setRegistrationErr else none) with
  | some e => ⟨st, false, "设置注册信息时出错：" ++ e, 0⟩
  | none =>
  match dnsSetupError env task with
  | some e => ⟨st, false, e, 0⟩
  | none =>
  match env.acmeRunErr with
  | some e => ⟨st, false, "证书生成失败：" ++ e, 0⟩
  | none =>
  match env.certParse with
  | .error e => ⟨st, false, "证书生成成功，但是分析证书信息时发生错误：" ++ e, 0⟩
  | .ok info =>
  if task.certId > 0 then saveCertRenewal env st taskId task info
  else saveCertNew env st taskId task info

/-- RunTask: run the task, then append one task log row recording the
outcome. -/
def RunTask (env : RunEnv) (st : EngineState) (taskId : Int) : RunResult :=
  let r := runTaskWithoutLog env st taskId false
  ⟨appendTaskLog r.state taskId r.isOk r.errMsg, r.isOk, r.errMsg, r.certId⟩

/-- Truncation of a unix timestamp to minute granularity, as produced by
formatting with pattern `%Y-%m-%d %H:%i` / `2006-01-02 15:04`: comparing two
such zero-padded strings is comparing the timestamps truncated to whole
minutes.  Both sides of the query's comparison are assumed to be rendered in
the same time zone. -/
def minuteOf (t : Nat) : Nat := t / 60

/-- Exclusion-list normalisation of `FindIssueACMETask`: an empty caller
list becomes `[0]` so that the generated `id NOT IN (...)` clause is well
formed. -/
def effectiveExcludeTasks (l : List Int) : List Int :=
  if l.isEmpty then [0] else l

/-- Row filter of the `FindIssueACMETask` query: `isOn`, `async`, enabled
state, `FROM_UNIXTIME(createdAt, minute pattern) > (now - hour*3600
formatted to the minute)`, `certId = 0`, and `id NOT IN excludeTasks`. -/
def issueTaskMatches (now : Nat) (hour : Nat) (excludeTasks : List Int) (t : ACMETask) : Bool :=
  t.isOn && t.async && t.state == ACMETaskStateEnabled &&
    decide (minuteOf (now - hour * 3600) < minuteOf t.createdAt) &&
    t.certId == 0 && !((effectiveExcludeTasks excludeTasks).contains t.id)

/-- Insertion step of the ascending-by-primary-key ordering (`AscPk`). -/
def insertByIdAsc (t : ACMETask) : List ACMETask → List ACMETask
  | [] => [t]
  | x :: xs => if t.id ≤ x.id then t :: x :: xs else x :: insertByIdAsc t xs

/-- Ascending-by-primary-key sort used to model the query's `AscPk()`. -/
def sortByIdAsc (l : List ACMETask) : List ACMETask :=
  l.foldr insertByIdAsc []

/-- FindIssueACMETask: the scheduling query — filter, order ascending by
primary key, and take at most `limit` rows.  `now` is the evaluation time of
the query's `time.Now()`. -/
def FindIssueACMETask (tasks : List ACMETask) (now : Nat) (hour : Nat) (limit : Nat)
    (excludeTasks : List Int) : List ACMETask :=
  (sortByIdAsc (tasks.filter (issueTaskMatches now hour excludeTasks))).take limit

/-- CreateACMETask: build the insert operator and save it.  `now` models the
`createdAt` value auto-filled by the storage layer at insert time; `status`
and `certId` take the column defaults (pending, no certificate).  The
`domains` column is the JSON encoding of the list when non-empty and the
literal empty-array text (never NULL) otherwise. -/
def CreateACMETask (st : EngineState) (now : Nat) (adminId : Int) (userId : Int)
    (authType : AuthType) (acmeUserId : Int) (dnsProviderId : Int) (dnsDomain : String)
    (domains : List String) (autoRenew : Bool) (authURL : String) (async : Bool) :
    EngineState × Int :=
  let domainsCol : Option (List String) :=
    if domains.length > 0 then some domains else some []
  let newId := st.nextTaskId
  ({ st with
      tasks := st.tasks ++ [{
        id := newId, adminId := adminId, userId := userId, authType := authType,
        acmeUserId := acmeUserId, dnsProviderId := dnsProviderId, dnsDomain := dnsDomain,
        domains := domainsCol, autoRenew := autoRenew, authURL := authURL,
        isOn := true, state := ACMETaskStateEnabled,
        status := ACMETaskStatusPending, certId := 0,
        async := async, createdAt := now }],
      nextTaskId := newId + 1 },
    newId)

/-- Modelled from the spec: `utils.ListIsGreaterEqualThanOther` is not under
src/.  Per the spec's supersession rule it decides whether the first list's
coverage is a superset of the second list's: every element of `list2` is an
element of `list1`. -/
def ListIsGreaterEqualThanOther (list1 list2 : List String) : Bool :=
  list2.all (fun x => list1.contains x)

/-- Supersession test of the binding merger (line 678): the newly issued
domains cover all of the prior certificate's DNS names and the prior
certificate ends strictly before the new one. -/
def supersedes (domains : List String) (newCertEnd : Int) (c : SSLCert) : Bool :=
  ListIsGreaterEqualThanOther domains c.dnsNames && decide (c.timeEndAt < newCertEnd)

/-- Loop over a policy's composed certificates (lines 676-686): a superseded
certificate is disabled and skipped, any other certificate's id is kept in
order. -/
def mergePolicyCerts (domains : List String) (newCertEnd : Int) :
    EngineState → List SSLCert → EngineState × List Int
  | st, [] => (st, [])
  | st, c :: rest =>
    if supersedes domains newCertEnd c then
      mergePolicyCerts domains newCertEnd (disableCert st c.id) rest
    else
      let r := mergePolicyCerts domains newCertEnd st rest
      (r.1, c.id :: r.2)

/-- Worker of `buildCertRefs`, carrying the `certExists` set (lines
702-711): each certificate id is turned into an enabled reference the first
time it is seen and skipped afterwards. -/
def buildCertRefsAux : List Int → List Int → List SSLCertRef
  | [], _ => []
  | cid :: rest, seen =>
    if seen.contains cid then buildCertRefsAux rest seen
    else ⟨true, cid⟩ :: buildCertRefsAux rest (cid :: seen)

/-- Reference-list construction of the binding merger: deduplicate the
merged certificate ids by identity, keeping first occurrences. -/
def buildCertRefs (certIds : List Int) : List SSLCertRef :=
  buildCertRefsAux certIds []

/-- FindEnabledSSLPolicy: look a policy up by primary key. -/
def findEnabledSSLPolicy (st : EngineState) (id : Int) : Option SSLPolicyRec :=
  st.policies.find? (fun p => p.id == id)

/-- Modelled from the spec: `SSLPolicyDAO.ComposePolicyConfig` (serving
configuration subsystem, not under src/) resolves a policy's certificate
reference list to the referenced enabled certificate records, which carry
the covered DNS names and the validity window the merger reads. -/
def composePolicyCerts (st : EngineState) (p : SSLPolicyRec) : List SSLCert :=
  p.certRefs.filterMap (fun r => findEnabledSSLCert st r.certId)

/-- Modelled from the spec: `ServerDAO.FindUserServerByServerName` (serving
configuration subsystem, not under src/) returns every host whose configured
server name matches the domain. -/
def findUserServerByServerName (st : EngineState) (domain : String) : List ServerRec :=
  st.servers.filter (fun s => s.serverNames.contains domain)

/-- Per-host entry accumulated in `serverMap` during the scan phase:
the policy to update (0 when a new policy must be created), the merged
certificate id list, and the owning user. -/
structure ServerInfo where
  sslPolicyId : Int
  certIds : List Int
  userId : Int
deriving DecidableEq, Repr

/-- Insert-or-replace on the scan phase's `serverMap`, keyed by server id.
Entries are kept in first-insertion order; the source iterates a Go map in
unspecified order, and no claim depends on the iteration order. -/
def insertServerInfo (m : List (Int × ServerInfo)) (sid : Int) (info : ServerInfo) :
    List (Int × ServerInfo) :=
  if m.any (fun e => e.1 == sid) then
    m.map (fun e => if e.1 == sid then (sid, info) else e)
  else m ++ [(sid, info)]

/-- Per-server body of the scan phase (lines 656-697): mark the server's
names as checked, skip servers without HTTPS, and for a server with a
resolvable policy run the supersession merge over the policy's certificates;
otherwise record a fresh binding carrying only the new certificate. -/
def processServer (domains : List String) (newCertEnd : Int) (resultCertId : Int)
    (acc : EngineState × List String × List (Int × ServerInfo)) (server : ServerRec) :
    EngineState × List String × List (Int × ServerInfo) :=
  let st := acc.1
  let checked := acc.2.1
  let smap := acc.2.2
  let checked := checked ++ server.serverNames
  match server.https with
  | none => (st, checked, smap)
  | some https =>
    match https.sslPolicyRef with
    | some ref =>
      match findEnabledSSLPolicy st ref.sslPolicyId with
      | some policy =>
        let r := mergePolicyCerts domains newCertEnd st (composePolicyCerts st policy)
        (r.1, checked,
          insertServerInfo smap server.id ⟨policy.id, r.2 ++ [resultCertId], server.userId⟩)
      | none =>
        (st, checked, insertServerInfo smap server.id ⟨0, [resultCertId], server.userId⟩)
    | none =>
      (st, checked, insertServerInfo smap server.id ⟨0, [resultCertId], server.userId⟩)

/-- Scan phase of the binding merger (lines 647-698): walk the issued
domains, skipping any domain already marked checked by an earlier host's
server-name list, and process every host matching the domain. -/
def scanDomains (domains : List String) (newCertEnd : Int) (resultCertId : Int) :
    List String → EngineState → List String → List (Int × ServerInfo) →
    EngineState × List (Int × ServerInfo)
  | [], st, _, smap => (st, smap)
  | d :: rest, st, checked, smap =>
    if checked.contains d then
      scanDomains domains newCertEnd resultCertId rest st checked smap
    else
      let acc := (findUserServerByServerName st d).foldl
        (processServer domains newCertEnd resultCertId) (st, checked, smap)
      scanDomains domains newCertEnd resultCertId rest acc.1 acc.2.1 acc.2.2

/-- Modelled from the spec: `SSLPolicyDAO.UpdatePolicy` (storage layer, §6:
transactional update operations over policy records) writes the supplied
settings into the policy row; the boolean OCSP and cipher-suites-on
arguments are stored back as 0/1 column values. -/
def SSLPolicyUpdate (p : SSLPolicyRec) (http2Enabled http3Enabled : Bool)
    (minVersion : String) (certRefs : List SSLCertRef) (hsts : String) (ocspIsOn : Bool)
    (clientAuthType : Int) (clientCACerts : String) (cipherSuitesIsOn : Bool)
    (cipherSuites : List String) : SSLPolicyRec :=
  { p with
      http2Enabled := http2Enabled, http3Enabled := http3Enabled,
      minVersion := minVersion, certRefs := certRefs, hsts := hsts,
      ocspIsOn := if ocspIsOn then 1 else 0,
      clientAuthType := clientAuthType, clientCACerts := clientCACerts,
      cipherSuitesIsOn := if cipherSuitesIsOn then 1 else 0,
      cipherSuites := cipherSuites }

/-- Call site of `UpdatePolicy` in the binding merger (lines 745-746): the
prior policy's settings are forwarded argument by argument, the certificate
reference list is replaced by the merged list, and the final cipher-suite
list argument is the source's literal nil. -/
def bindUpdatePolicy (policy : SSLPolicyRec) (certRefs : List SSLCertRef) : SSLPolicyRec :=
  SSLPolicyUpdate policy policy.http2Enabled policy.http3Enabled policy.minVersion
    certRefs policy.hsts (policy.ocspIsOn == 1) policy.clientAuthType
    policy.clientCACerts (policy.cipherSuitesIsOn == 1) []

/-- UpdateServerHTTPS on the create-policy path: point the server's HTTPS
config at the freshly created policy. -/
def updateServerHTTPS (st : EngineState) (serverId : Int) (policyId : Int) : EngineState :=
  { st with servers := st.servers.map (fun s =>
      if s.id == serverId then { s with https := some ⟨some ⟨true, policyId⟩⟩ } else s) }

/-- Apply phase of the binding merger (lines 700-753): for each `serverMap`
entry, deduplicate the certificate ids into a reference list; create a new
policy (and point the server at it) when the entry has none, otherwise
rewrite the existing policy row through the `UpdatePolicy` call site. -/
def applyServerBinding (st : EngineState) (entry : Int × ServerInfo) : EngineState :=
  let serverId := entry.1
  let info := entry.2
  let certRefs := buildCertRefs info.certIds
  if info.sslPolicyId == 0 then
    let policyId := st.nextPolicyId
    let newPolicy : SSLPolicyRec := {
      id := policyId, http2Enabled := false, http3Enabled := false,
      minVersion := "TLS 1.1", certRefs := certRefs, hsts := "", ocspIsOn := 0,
      clientAuthType := 0, clientCACerts := "", cipherSuitesIsOn := 0, cipherSuites := [] }
    let st1 := { st with policies := st.policies ++ [newPolicy],
                         nextPolicyId := policyId + 1 }
    updateServerHTTPS st1 serverId policyId
  else
    match findEnabledSSLPolicy st info.sslPolicyId with
    | none => st
    | some policy =>
      { st with policies := st.policies.map (fun p =>
          if p.id == info.sslPolicyId then bindUpdatePolicy policy certRefs else p) }

/-- Result of `RunTaskAndAutoBindServer`: the state and in-flight map after
the call plus the returned `(isOk, errMsg)` pair. -/
structure BindResult where
  state : EngineState
  runningMap : List Int
  isOk : Bool
  errMsg : String
deriving Repr

/-- Embedding of `RunTaskAndAutoBindServer(tx, taskId, domains)`.
`runningMap` is the value of the package-level `runningTaskMap`; the source
reads it with `Load` and contains no `Store` or `Delete` on it anywhere, so
every path returns the map unchanged.  After the dedup check the source
runs the task with a random account, appends one log row, writes the
terminal status, and under `serverBindMutex` runs the scan and apply phases
of the binding merger; the embedding is that sequential body.  When the
newly issued certificate cannot be looked up again the source returns the
successful result without binding (on a lookup error), and a nil row is
impossible in a run that just persisted that enabled certificate. -/
def RunTaskAndAutoBindServer (env : RunEnv) (st : EngineState) (runningMap : List Int)
    (taskId : Int) (domains : List String) : BindResult :=
  if runningMap.contains taskId then ⟨st, runningMap, true, ""⟩
  else
    let r := runTaskWithoutLog env st taskId true
    let st2 := appendTaskLog r.state taskId r.isOk r.errMsg
    if !r.isOk then
      ⟨updateTaskStatus st2 taskId ACMETaskStatusIssueFailed, runningMap, false, r.errMsg⟩
    else
      let st3 := updateTaskStatus st2 taskId ACMETaskStatusDone
      match env.findNewCertErr with
      | some _ => ⟨st3, runningMap, r.isOk, r.errMsg⟩
      | none =>
        match findEnabledSSLCert st3 r.certId with
        | none => ⟨st3, runningMap, r.isOk, r.errMsg⟩
        | some newCert =>
          let s := scanDomains domains newCert.timeEndAt r.certId domains st3 [] []
          ⟨s.2.foldl applyServerBinding s.1, runningMap, r.isOk, r.errMsg⟩

/-- Outcome of one invocation of the per-domain authorization callback:
either the closure returns normally (recording whether the authentication
record was persisted and whether the webhook POST was attempted), or it
dereferences a nil request value, which is a runtime panic of the calling
process. -/
inductive OnAuthOutcome where
  | completed (authSaved : Bool) (webhookAttempted : Bool)
  | nilDereference
deriving DecidableEq, Repr

/-- Outcomes of the external calls made inside the authorization callback. -/
structure OnAuthEnv where
  createAuthErr : Option String
  marshalAuthJSONErr : Bool
  newRequestErr : Option String
deriving DecidableEq, Repr

/-- Embedding of the closure passed to `acmeRequest.OnAuth` (lines 467-499):
persist the authentication record first; on persistence failure only log;
otherwise, when the task carries a callback URL, marshal the payload and
POST it.  In the source the two `req.Header.Set` calls run before the error
check on `http.NewRequest`, and on error the request value is nil, so that
path dereferences nil (`nilDereference`).  A failure of the POST itself
(`client.Do`) is only logged, leaving the outcome `completed true true`. -/
def onAuthCallback (env : OnAuthEnv) (authURL : String) : OnAuthOutcome :=
  match env.createAuthErr with
  | some _ => .completed false false
  | none =>
    if authURL.length > 0 then
      if env.marshalAuthJSONErr then .completed true false
      else
        match env.newRequestErr with
        | some _ => .nilDereference
        | none => .completed true true
    else .completed true false

/-- Concrete HTTP-01 task used by witnesses and counterexamples: enabled,
on, pending, asynchronous, no certificate bound. -/
def taskA : ACMETask := {
  id := 1, adminId := 1, userId := 0, authType := .http, acmeUserId := 5,
  dnsProviderId := 0, dnsDomain := "example.com", domains := some ["a.example.com"],
  autoRenew := true, authURL := "", isOn := true, state := 1, status := 0,
  certId := 0, async := true, createdAt := 3600000 }

/-- Concrete ACME account used by witnesses. -/
def userOk : ACMEUserRec := {
  id := 5, email := "ops@example.com", privateKey := "key", registration := "",
  providerCode := "letsencrypt", accountId := 0 }

/-- Concrete parse result of a freshly issued certificate. -/
def parseOk : CertParseInfo := {
  timeBeginAt := 100, timeEndAt := 999,
  dnsNames := ["a.example.com"], commonNames := ["a.example.com"] }

/-- Environment in which every external collaborator succeeds. -/
def envAllOk : RunEnv := {
  findTaskErr := none, findUser := .ok (some userOk), randomUser := some userOk,
  providerExists := fun _ => true, findProviderAccountErr := none,
  parseKeyErr := none, setRegistrationErr := none, findDNSProviderErr := none,
  dnsProvider := some ⟨7, "dnspod", 600⟩, dnsClientExists := fun _ => true,
  decodeAPIParamsErr := none, dnsAuthErr := none, acmeRunErr := none,
  certParse := .ok parseOk, findBoundCertErr := none, disableTaskErr := none,
  updateCertErr := none, createCertErr := none, updateCertACMEErr := none,
  updateTaskCertErr := none, findNewCertErr := none }

/-- Environment in which the CA refuses issuance and everything else
succeeds. -/
def envCAFails : RunEnv := { envAllOk with acmeRunErr := some "CA rejected the order" }

/-- Concrete initial store holding only `taskA`. -/
def st0 : EngineState := {
  tasks := [taskA], certs := [], policies := [], servers := [], taskLogs := [],
  nextTaskId := 2, nextCertId := 100, nextPolicyId := 50 }

/-- Prior certificate whose coverage is contained in the new issuance and
which expires earlier. -/
def oldCertA : SSLCert := {
  id := 9, isOn := true, name := "old-a", description := "", serverName := "",
  isCA := false, timeBeginAt := 0, timeEndAt := 500,
  dnsNames := ["a.example.com"], commonNames := [], state := 1, acmeTaskId := 0 }

/-- Prior certificate covering a domain outside the new issuance. -/
def oldCertB : SSLCert := { oldCertA with id := 10, name := "old-b", dnsNames := ["b.example.com"] }

/-- Existing TLS policy referencing both prior certificates, with
distinctive values in every other setting. -/
def polA : SSLPolicyRec := {
  id := 60, http2Enabled := true, http3Enabled := false, minVersion := "TLS 1.2",
  certRefs := [⟨true, 9⟩, ⟨true, 10⟩], hsts := "hsts-json", ocspIsOn := 1,
  clientAuthType := 2, clientCACerts := "ca-certs-json", cipherSuitesIsOn := 1,
  cipherSuites := ["TLS_AES_128_GCM_SHA256"] }

/-- Host bound to `polA` whose server name matches the issued domain. -/
def srvA : ServerRec := {
  id := 20, userId := 3, serverNames := ["a.example.com"], https := some ⟨some ⟨true, 60⟩⟩ }

/-- Store holding the task, the two prior certificates, the policy and the
host. -/
def stSrv : EngineState := { st0 with certs := [oldCertA, oldCertB], policies := [polA], servers := [srvA] }

/-- Specification predicate for the supersession theorem: every certificate
row carrying the given id is disabled in the state. -/
def rowsDisabled (st : EngineState) (cid : Int) : Prop :=
  ∀ row ∈ st.certs, row.id = cid → row.state = ACMETaskStateDisabled

/-! Projection lemmas: which table each store operation leaves unchanged. -/

@[simp] theorem mapTask_taskLogs (id : Int) (f : ACMETask → ACMETask) (st : EngineState) :
    (mapTask id f st).taskLogs = st.taskLogs := rfl

@[simp] theorem updateTaskStatus_taskLogs (st : EngineState) (id s : Int) :
    (updateTaskStatus st id s).taskLogs = st.taskLogs := rfl

@[simp] theorem setTaskCert_taskLogs (st : EngineState) (id c : Int) :
    (setTaskCert st id c).taskLogs = st.taskLogs := rfl

@[simp] theorem disableTask_taskLogs (st : EngineState) (id : Int) :
    (disableTask st id).taskLogs = st.taskLogs := rfl

@[simp] theorem disableCert_taskLogs (st : EngineState) (id : Int) :
    (disableCert st id).taskLogs = st.taskLogs := rfl

@[simp] theorem updateCertValidity_taskLogs (st : EngineState) (id : Int) (info : CertParseInfo) :
    (updateCertValidity st id info).taskLogs = st.taskLogs := rfl

@[simp] theorem createCertRow_taskLogs (st : EngineState) (t : ACMETask) (info : CertParseInfo) :
    (createCertRow st t info).taskLogs = st.taskLogs := rfl

@[simp] theorem updateCertACME_taskLogs (st : EngineState) (certId taskId : Int) :
    (updateCertACME st certId taskId).taskLogs = st.taskLogs := rfl

@[simp] theorem updateServerHTTPS_taskLogs (st : EngineState) (serverId policyId : Int) :
    (updateServerHTTPS st serverId policyId).taskLogs = st.taskLogs := rfl

@[simp] theorem appendTaskLog_taskLogs (st : EngineState) (taskId : Int) (isOk : Bool) (errMsg : String) :
    (appendTaskLog st taskId isOk errMsg).taskLogs = st.taskLogs ++ [⟨taskId, isOk, errMsg⟩] := rfl

@[simp] theorem updateTaskStatus_nextCertId (st : EngineState) (id s : Int) :
    (updateTaskStatus st id s).nextCertId = st.nextCertId := rfl

@[simp] theorem findEnabledACMETask_createCertRow (st : EngineState) (t : ACMETask)
    (info : CertParseInfo) (tid : Int) :
    findEnabledACMETask (createCertRow st t info) tid = findEnabledACMETask st tid := rfl

@[simp] theorem findEnabledACMETask_updateCertACME (st : EngineState) (certId taskId tid : Int) :
    findEnabledACMETask (updateCertACME st certId taskId) tid = findEnabledACMETask st tid := rfl

@[simp] theorem findEnabledACMETask_appendTaskLog (st : EngineState) (taskId : Int)
    (isOk : Bool) (errMsg : String) (tid : Int) :
    findEnabledACMETask (appendTaskLog st taskId isOk errMsg) tid = findEnabledACMETask st tid := rfl

/-- Renewal save arm never touches the task log table. -/
theorem saveCertRenewal_taskLogs (env : RunEnv) (st : EngineState) (taskId : Int)
    (task : ACMETask) (info : CertParseInfo) :
    (saveCertRenewal env st taskId task info).state.taskLogs = st.taskLogs := by
  unfold saveCertRenewal
  repeat' split
  all_goals simp

/-- First-issuance save arm never touches the task log table. -/
theorem saveCertNew_taskLogs (env : RunEnv) (st : EngineState) (taskId : Int)
    (task : ACMETask) (info : CertParseInfo) :
    (saveCertNew env st taskId task info).state.taskLogs = st.taskLogs := by
  unfold saveCertNew
  repeat' split
  all_goals simp

/-- The whole run body never touches the task log table: `runTaskWithoutLog`
returns a state with the caller's log list. -/
theorem runTaskWithoutLog_taskLogs (env : RunEnv) (st : EngineState) (tid : Int) (b : Bool) :
    (runTaskWithoutLog env st tid b).state.taskLogs = st.taskLogs := by
  unfold runTaskWithoutLog
  repeat' (first | split | simp [saveCertRenewal_taskLogs, saveCertNew_taskLogs])

/-- The supersession merge only disables certificate rows; the log list is
untouched. -/
theorem mergePolicyCerts_taskLogs (d : List String) (e : Int) :
    ∀ (l : List SSLCert) (st : EngineState),
      (mergePolicyCerts d e st l).1.taskLogs = st.taskLogs := by
  intro l
  induction l with
  | nil => intro st; rfl
  | cons c rest ih =>
    intro st
    unfold mergePolicyCerts
    split
    · rw [ih]; simp
    · exact ih st

/-- Per-server scan body leaves the log list unchanged. -/
theorem processServer_taskLogs (d : List String) (e r : Int)
    (acc : EngineState × List String × List (Int × ServerInfo)) (server : ServerRec) :
    (processServer d e r acc server).1.taskLogs = acc.1.taskLogs := by
  unfold processServer
  repeat' (first | split | simp [mergePolicyCerts_taskLogs])

/-- Folding the scan body over any server list leaves the log list
unchanged. -/
theorem foldl_processServer_taskLogs (d : List String) (e r : Int) :
    ∀ (servers : List ServerRec) (acc : EngineState × List String × List (Int × ServerInfo)),
      ((servers.foldl (processServer d e r) acc).1.taskLogs = acc.1.taskLogs) := by
  intro servers
  induction servers with
  | nil => intro acc; rfl
  | cons s rest ih =>
    intro acc
    rw [List.foldl_cons, ih, processServer_taskLogs]

/-- The whole scan phase leaves the log list unchanged. -/
theorem scanDomains_taskLogs (domains : List String) (e r : Int) :
    ∀ (rem : List String) (st : EngineState) (checked : List String)
      (smap : List (Int × ServerInfo)),
      (scanDomains domains e r rem st checked smap).1.taskLogs = st.taskLogs := by
  intro rem
  induction rem with
  | nil => intro st checked smap; rfl
  | cons d rest ih =>
    intro st checked smap
    unfold scanDomains
    split
    · exact ih st checked smap
    · rw [ih, foldl_processServer_taskLogs]

/-- The apply phase (policy creation / rewrite) leaves the log list
unchanged. -/
theorem applyServerBinding_taskLogs (st : EngineState) (entry : Int × ServerInfo) :
    (applyServerBinding st entry).taskLogs = st.taskLogs := by
  unfold applyServerBinding
  repeat' (first | split | simp [updateServerHTTPS])

/-- Folding the apply phase over the server map leaves the log list
unchanged. -/
theorem foldl_applyServerBinding_taskLogs :
    ∀ (m : List (Int × ServerInfo)) (st : EngineState),
      (m.foldl applyServerBinding st).taskLogs = st.taskLogs := by
  intro m
  induction m with
  | nil => intro st; rfl
  | cons e rest ih =>
    intro st
    rw [List.foldl_cons, ih, applyServerBinding_taskLogs]

/-! Lookup-after-update lemmas for the task table. -/

theorem find?_map_taskMatches (tid : Int) (f : ACMETask → ACMETask)
    (hid : ∀ x, (f x).id = x.id) (hst : ∀ x, (f x).state = x.state) :
    ∀ (l : List ACMETask) (t : ACMETask), l.find? (taskMatches tid) = some t →
      (l.map (fun x => if x.id == tid then f x else x)).find? (taskMatches tid) = some (f t) := by
  intro l
  induction l with
  | nil => intro t h; simp at h
  | cons x xs ih =>
    intro t h
    by_cases hp : taskMatches tid x = true
    · rw [List.find?_cons_of_pos _ hp] at h
      have hxid : (x.id == tid) = true := by
        have h' := hp
        unfold taskMatches at h'
        simp only [Bool.and_eq_true] at h'
        exact h'.1
      have hgx : (if x.id == tid then f x else x) = f x := by rw [hxid]; rfl
      have hpfx : taskMatches tid (f x) = true := by
        unfold taskMatches at hp ⊢
        rw [hid, hst]; exact hp
      rw [List.map_cons, hgx, List.find?_cons_of_pos _ hpfx]
      cases h; rfl
    · rw [List.find?_cons_of_neg _ hp] at h
      have hpgx : ¬ taskMatches tid (if x.id == tid then f x else x) = true := by
        by_cases hxid : (x.id == tid) = true
        · have hgx : (if x.id == tid then f x else x) = f x := by rw [hxid]; rfl
          rw [hgx]
          have heqm : taskMatches tid (f x) = taskMatches tid x := by
            unfold taskMatches; rw [hid, hst]
          rw [heqm]
          exact hp
        · have hgx : (if x.id == tid then f x else x) = x := by rw [if_neg hxid]
          rw [hgx]
          exact hp
      rw [List.map_cons, List.find?_cons_of_neg _ hpgx]
      exact ih t h

theorem findEnabledACMETask_mapTask (st : EngineState) (tid : Int)
    (f : ACMETask → ACMETask) (hid : ∀ x, (f x).id = x.id) (hst : ∀ x, (f x).state = x.state)
    (t : ACMETask) (h : findEnabledACMETask st tid = some t) :
    findEnabledACMETask (mapTask tid f st) tid = some (f t) :=
  find?_map_taskMatches tid f hid hst st.tasks t h

theorem findEnabledACMETask_updateTaskStatus (st : EngineState) (tid s : Int)
    (t : ACMETask) (h : findEnabledACMETask st tid = some t) :
    findEnabledACMETask (updateTaskStatus st tid s) tid = some { t with status := s } :=
  findEnabledACMETask_mapTask st tid (fun u => { u with status := s })
    (fun _ => rfl) (fun _ => rfl) t h

theorem findEnabledACMETask_setTaskCert (st : EngineState) (tid c : Int)
    (t : ACMETask) (h : findEnabledACMETask st tid = some t) :
    findEnabledACMETask (setTaskCert st tid c) tid = some { t with certId := c } :=
  findEnabledACMETask_mapTask st tid (fun u => { u with certId := c })
    (fun _ => rfl) (fun _ => rfl) t h

/-! Membership lemmas for the scheduling query's sort. -/

theorem mem_insertByIdAsc {x t : ACMETask} :
    ∀ {l : List ACMETask}, x ∈ insertByIdAsc t l → x = t ∨ x ∈ l := by
  intro l
  induction l with
  | nil =>
    intro h
    simp only [insertByIdAsc] at h
    left
    simpa using h
  | cons a as ih =>
    intro h
    simp only [insertByIdAsc] at h
    by_cases hle : t.id ≤ a.id
    · rw [if_pos hle] at h
      rcases List.mem_cons.1 h with h1 | h1
      · exact Or.inl h1
      · exact Or.inr h1
    · rw [if_neg hle] at h
      rcases List.mem_cons.1 h with h1 | h1
      · exact Or.inr (h1 ▸ List.mem_cons_self a as)
      · rcases ih h1 with h2 | h2
        · exact Or.inl h2
        · exact Or.inr (List.mem_cons_of_mem a h2)

theorem mem_sortByIdAsc {x : ACMETask} :
    ∀ {l : List ACMETask}, x ∈ sortByIdAsc l → x ∈ l := by
  intro l
  induction l with
  | nil => intro h; simp [sortByIdAsc] at h
  | cons a as ih =>
    intro h
    have h' : x ∈ insertByIdAsc a (sortByIdAsc as) := h
    rcases mem_insertByIdAsc h' with h'' | h''
    · exact h'' ▸ List.mem_cons_self a as
    · exact List.mem_cons_of_mem a (ih h'')

/-! Lemmas about the reference-list deduplication. -/

theorem mem_buildCertRefsAux (x : Int) :
    ∀ (l seen : List Int),
      (x ∈ (buildCertRefsAux l seen).map SSLCertRef.certId) ↔ (x ∈ l ∧ x ∉ seen) := by
  intro l
  induction l with
  | nil => intro seen; simp [buildCertRefsAux]
  | cons c rest ih =>
    intro seen
    unfold buildCertRefsAux
    by_cases hc : seen.contains c
    · rw [if_pos hc]
      rw [ih]
      constructor
      · rintro ⟨hm, hns⟩
        exact ⟨List.mem_cons_of_mem c hm, hns⟩
      · rintro ⟨hm, hns⟩
        rcases List.mem_cons.1 hm with rfl | hm'
        · exact absurd (by simpa using hc) hns
        · exact ⟨hm', hns⟩
    · rw [if_neg hc]
      rw [List.map_cons]
      simp only [List.mem_cons]
      rw [ih]
      constructor
      · rintro (rfl | ⟨hm, hns⟩)
        · exact ⟨Or.inl rfl, by simpa using hc⟩
        · refine ⟨Or.inr hm, fun hx => hns (List.mem_cons_of_mem c hx)⟩
      · rintro ⟨rfl | hm, hns⟩
        · exact Or.inl rfl
        · by_cases hxc : x = c
          · exact Or.inl hxc
          · exact Or.inr ⟨hm, by
              intro hx
              rcases List.mem_cons.1 hx with h' | h'
              · exact hxc h'
              · exact hns h'⟩

theorem mem_buildCertRefs (x : Int) (l : List Int) :
    x ∈ (buildCertRefs l).map SSLCertRef.certId ↔ x ∈ l := by
  unfold buildCertRefs
  rw [mem_buildCertRefsAux]
  simp

theorem buildCertRefsAux_nodup :
    ∀ (l seen : List Int), ((buildCertRefsAux l seen).map SSLCertRef.certId).Nodup := by
  intro l
  induction l with
  | nil => intro seen; simp [buildCertRefsAux]
  | cons c rest ih =>
    intro seen
    unfold buildCertRefsAux
    by_cases hc : seen.contains c
    · rw [if_pos hc]; exact ih seen
    · rw [if_neg hc]
      rw [List.map_cons]
      refine List.nodup_cons.2 ⟨?_, ih (c :: seen)⟩
      intro hmem
      have := (mem_buildCertRefsAux c rest (c :: seen)).1 hmem
      exact this.2 (List.mem_cons_self c seen)

/-! Lemmas about the supersession merge. -/

theorem mergePolicyCerts_ids (d : List String) (e : Int) :
    ∀ (l : List SSLCert) (st : EngineState),
      (mergePolicyCerts d e st l).2 =
        (l.filter (fun c => !supersedes d e c)).map SSLCert.id := by
  intro l
  induction l with
  | nil => intro st; rfl
  | cons c rest ih =>
    intro st
    unfold mergePolicyCerts
    by_cases hs : supersedes d e c = true
    · rw [if_pos hs]
      rw [ih]
      simp [hs]
    · rw [if_neg hs]
      have hb : (!supersedes d e c) = true := by simpa using hs
      show c.id :: (mergePolicyCerts d e st rest).2 =
        List.map SSLCert.id (List.filter (fun c => !supersedes d e c) (c :: rest))
      rw [ih]
      simp [List.filter_cons, hb]

theorem disableCert_self_rowsDisabled (st : EngineState) (cid : Int) :
    rowsDisabled (disableCert st cid) cid := by
  intro row hrow hid
  unfold disableCert at hrow
  rcases List.mem_map.1 hrow with ⟨r0, _, rfl⟩
  by_cases h0 : (r0.id == cid) = true
  · rw [if_pos h0]
  · rw [if_neg h0] at hid ⊢
    exact absurd (by simpa using hid) (by simpa using h0)

theorem rowsDisabled_disableCert (st : EngineState) (cid y : Int)
    (h : rowsDisabled st cid) : rowsDisabled (disableCert st y) cid := by
  intro row hrow hid
  unfold disableCert at hrow
  rcases List.mem_map.1 hrow with ⟨r0, hr0, rfl⟩
  by_cases h0 : (r0.id == y) = true
  · rw [if_pos h0]
  · rw [if_neg h0] at hid ⊢
    exact h r0 hr0 hid

theorem rowsDisabled_mergePolicyCerts (d : List String) (e : Int) :
    ∀ (l : List SSLCert) (st : EngineState) (cid : Int),
      rowsDisabled st cid → rowsDisabled (mergePolicyCerts d e st l).1 cid := by
  intro l
  induction l with
  | nil => intro st cid h; exact h
  | cons c rest ih =>
    intro st cid h
    unfold mergePolicyCerts
    by_cases hs : supersedes d e c = true
    · rw [if_pos hs]
      exact ih _ cid (rowsDisabled_disableCert st cid c.id h)
    · rw [if_neg hs]
      exact ih st cid h

theorem mergePolicyCerts_disables (d : List String) (e : Int) :
    ∀ (l : List SSLCert) (st : EngineState) (c : SSLCert),
      c ∈ l → supersedes d e c = true →
        rowsDisabled (mergePolicyCerts d e st l).1 c.id := by
  intro l
  induction l with
  | nil => intro st c hc; simp at hc
  | cons x rest ih =>
    intro st c hc hs
    unfold mergePolicyCerts
    by_cases hsx : supersedes d e x = true
    · rw [if_pos hsx]
      rcases List.mem_cons.1 hc with rfl | hc'
      · exact rowsDisabled_mergePolicyCerts d e rest _ c.id
          (disableCert_self_rowsDisabled st c.id)
      · exact ih _ c hc' hs
    · rw [if_neg hsx]
      rcases List.mem_cons.1 hc with rfl | hc'
      · exact absurd hs hsx
      · exact ih st c hc' hs

theorem disableCert_filter_ne (st : EngineState) (y cid : Int) (hne : y ≠ cid) :
    (disableCert st y).certs.filter (fun r => r.id == cid) =
      st.certs.filter (fun r => r.id == cid) := by
  unfold disableCert
  simp only
  induction st.certs with
  | nil => rfl
  | cons r rest ih =>
    simp only [List.map_cons, List.filter_cons]
    by_cases h0 : (r.id == y) = true
    · rw [if_pos h0]
      have hrid : (r.id == cid) = false := by
        have hr : r.id = y := by simpa using h0
        simp [hr, hne]
      have hsame : (({ r with state := ACMETaskStateDisabled } : SSLCert).id == cid) = false := hrid
      simp only [hsame, hrid, Bool.false_eq_true, if_false]
      exact ih
    · rw [if_neg h0]
      by_cases h1 : (r.id == cid) = true
      · simp only [h1, if_true]
        rw [ih]
      · have h1' : (r.id == cid) = false := by simpa using h1
        simp only [h1', Bool.false_eq_true, if_false]
        exact ih

theorem mergePolicyCerts_preserves (d : List String) (e : Int) :
    ∀ (l : List SSLCert) (st : EngineState) (cid : Int),
      cid ∉ (l.filter (supersedes d e)).map SSLCert.id →
        (mergePolicyCerts d e st l).1.certs.filter (fun r => r.id == cid) =
          st.certs.filter (fun r => r.id == cid) := by
  intro l
  induction l with
  | nil => intro st cid _; rfl
  | cons x rest ih =>
    intro st cid hnotin
    unfold mergePolicyCerts
    by_cases hsx : supersedes d e x = true
    · rw [if_pos hsx]
      have hfl : (x :: rest).filter (supersedes d e) = x :: rest.filter (supersedes d e) := by
        simp [List.filter_cons, hsx]
      rw [hfl, List.map_cons] at hnotin
      have hx : cid ≠ x.id := fun hh => hnotin (by rw [hh]; exact List.mem_cons_self _ _)
      have hrest : cid ∉ (rest.filter (supersedes d e)).map SSLCert.id :=
        fun hh => hnotin (List.mem_cons_of_mem _ hh)
      rw [ih _ cid hrest, disableCert_filter_ne st x.id cid (fun hh => hx hh.symm)]
    · rw [if_neg hsx]
      have hsx' : supersedes d e x = false := by simpa using hsx
      have hfl : (x :: rest).filter (supersedes d e) = rest.filter (supersedes d e) := by
        simp [List.filter_cons, hsx']
      rw [hfl] at hnotin
      exact ih st cid hnotin

theorem nodup_certs_id_inj {l : List SSLCert} (h : (l.map SSLCert.id).Nodup) :
    ∀ {a b : SSLCert}, a ∈ l → b ∈ l → a.id = b.id → a = b := by
  induction l with
  | nil => intro a b ha _ _; simp at ha
  | cons x rest ih =>
    intro a b ha hb hab
    rw [List.map_cons, List.nodup_cons] at h
    rcases List.mem_cons.1 ha with rfl | ha' <;> rcases List.mem_cons.1 hb with rfl | hb'
    · rfl
    · exfalso; apply h.1; rw [hab]; exact List.mem_map_of_mem SSLCert.id hb'
    · exfalso; apply h.1; rw [← hab]; exact List.mem_map_of_mem SSLCert.id ha'
    · exact ih h.2 ha' hb' hab

/-! Claim theorems. -/

/-- Claim C1, counterexample: after a successful `RunTask` on the pending
task `taskA` (no certificate previously bound, every collaborator
succeeding), the store holds a task with a non-zero certificate reference
whose status is `Running`, not `Done` — the claimed invariant fails on the
state `RunTask` produces. -/
theorem C1_counterexample :
    findEnabledACMETask (RunTask envAllOk st0 1).state 1 =
      some { taskA with status := ACMETaskStatusRunning, certId := 100 } ∧
    ({ taskA with status := ACMETaskStatusRunning, certId := 100 } : ACMETask).certId ≠ 0 ∧
    ({ taskA with status := ACMETaskStatusRunning, certId := 100 } : ACMETask).status ≠
      ACMETaskStatusDone :=
  ⟨rfl, by decide, by decide⟩

/-- Claim C2, counterexample: with `staleHours = 1`, a task created exactly
at the query time is returned immediately, while a task created two hours
before the query time is not returned — the opposite of the claimed
staleness guard in both directions. -/
theorem C2_counterexample :
    taskA ∈ FindIssueACMETask [taskA] 3600000 1 10 [] ∧
    { taskA with id := 2, createdAt := 3592800 } ∉
      FindIssueACMETask [{ taskA with id := 2, createdAt := 3592800 }] 3600000 1 10 [] := by
  constructor
  · decide
  · decide

/-- Claim C4, code-bug exhibit: the in-flight map is only read, never
written, by the source, so starting from the initial empty `runningTaskMap`
two back-to-back invocations with the same task id both pass the guard and
both perform the full run, each appending its own log row; the map comes
back empty from the first call. -/
theorem C4_code_bug :
    (RunTaskAndAutoBindServer envCAFails st0 [] 1 ["a.example.com"]).runningMap = [] ∧
    (RunTaskAndAutoBindServer envCAFails st0 [] 1 ["a.example.com"]).state.taskLogs.length = 1 ∧
    (RunTaskAndAutoBindServer envCAFails
        (RunTaskAndAutoBindServer envCAFails st0 [] 1 ["a.example.com"]).state
        (RunTaskAndAutoBindServer envCAFails st0 [] 1 ["a.example.com"]).runningMap
        1 ["a.example.com"]).state.taskLogs.length = 2 :=
  ⟨rfl, rfl, rfl⟩

/-- Claim C5, counterexample: an invocation skipped by the dedup guard
returns `(true, "")` and appends no task log row at all. -/
theorem C5_counterexample :
    (RunTaskAndAutoBindServer envAllOk st0 [1] 1 ["a.example.com"]).state.taskLogs = [] ∧
    (RunTaskAndAutoBindServer envAllOk st0 [1] 1 ["a.example.com"]).isOk = true ∧
    (RunTaskAndAutoBindServer envAllOk st0 [1] 1 ["a.example.com"]).errMsg = "" :=
  ⟨rfl, rfl, rfl⟩

/-- Claim C6: the reference list written back by the binding merger carries
no duplicate certificate ids, for every input certificate-id list. -/
theorem C6_nodup_refs :
    ∀ certIds : List Int, ((buildCertRefs certIds).map (fun r => r.certId)).Nodup := by
  intro l
  exact buildCertRefsAux_nodup l []

/-- Claim C7, counterexample: after the binding merger rewrites host 20's
policy, the stored cipher-suite list is empty although the prior policy
carried a non-empty one — the `UpdatePolicy` call site passes nil for that
argument. -/
theorem C7_counterexample :
    ((RunTaskAndAutoBindServer envAllOk stSrv [] 1 ["a.example.com"]).state.policies.map
      (fun p => (p.id, p.cipherSuites))) = [(60, [])] ∧
    polA.cipherSuites = ["TLS_AES_128_GCM_SHA256"] :=
  ⟨rfl, rfl⟩

/-- Claim C8, counterexample: `CreateACMETask` called with an empty domain
list is not rejected — it persists a new task row whose `domains` column
holds the empty JSON array (not NULL) and returns its fresh id. -/
theorem C8_counterexample :
    (CreateACMETask st0 3600000 1 0 AuthType.http 5 0 "example.com" [] true "" true).1.tasks =
      st0.tasks ++ [{
        id := 2, adminId := 1, userId := 0, authType := AuthType.http, acmeUserId := 5,
        dnsProviderId := 0, dnsDomain := "example.com", domains := some [],
        autoRenew := true, authURL := "", isOn := true, state := ACMETaskStateEnabled,
        status := ACMETaskStatusPending, certId := 0, async := true, createdAt := 3600000 }] ∧
    (CreateACMETask st0 3600000 1 0 AuthType.http 5 0 "example.com" [] true "" true).2 = 2 :=
  ⟨rfl, rfl⟩

/-- Claim C9, code-bug exhibit: with the authentication record persisted, a
callback URL present, and `http.NewRequest` failing, the callback hits the
nil-request dereference (the header writes precede the error check) — a
runtime panic rather than a structured `(ok=false, message)` result. -/
theorem C9_code_bug :
    onAuthCallback ⟨none, false, some "net/url: invalid control character in URL"⟩
      "http://example.com/webhook" = OnAuthOutcome.nilDereference := rfl

/-- Claim C10: whenever persisting the authentication record fails, the
webhook POST is not attempted — even when the task carries a callback URL —
and the callback returns normally, so the issuance proceeds. -/
theorem C10_webhook_guard (env : OnAuthEnv) (authURL : String) (e : String)
    (h : env.createAuthErr = some e) :
    onAuthCallback env authURL = OnAuthOutcome.completed false false := by
  unfold onAuthCallback
  rw [h]

/-- Witness for C10 at a concrete failing persist and a present callback
URL. -/
theorem C10_witness :
    (⟨some "db write failed", false, none⟩ : OnAuthEnv).createAuthErr = some "db write failed" ∧
    onAuthCallback ⟨some "db write failed", false, none⟩ "http://example.com/webhook" =
      OnAuthOutcome.completed false false :=
  ⟨rfl, C10_webhook_guard ⟨some "db write failed", false, none⟩ "http://example.com/webhook"
    "db write failed" rfl⟩

/-- Claim C1, amended: on a successful first issuance `RunTask` binds the
fresh certificate id to the task but leaves the task's status at `Running`;
it never writes `Done` (only `RunTaskAndAutoBindServer` does), so a
non-zero certificate reference does not imply status `Done`.  Stated for
every store whose enabled-task lookup yields an on, not-done, certificate-
free HTTP-01 task, run under the all-success environment. -/
theorem C1_amended (st : EngineState) (taskId : Int) (task : ACMETask)
    (h : findEnabledACMETask st taskId = some task)
    (hOn : task.isOn = true) (hNotDone : task.status ≠ ACMETaskStatusDone)
    (hNoCert : task.certId = 0) (hAuth : task.authType = AuthType.http) :
    (RunTask envAllOk st taskId).isOk = true ∧
    (RunTask envAllOk st taskId).certId = st.nextCertId ∧
    findEnabledACMETask (RunTask envAllOk st taskId).state taskId =
      some { task with status := ACMETaskStatusRunning, certId := st.nextCertId } := by
  have hstat : (task.status == ACMETaskStatusDone) = false := by
    simp only [beq_eq_false_iff_ne, ne_eq]
    exact hNotDone
  have hdns : ∀ env : RunEnv, dnsSetupError env task = none := by
    intro env
    unfold dnsSetupError
    rw [hAuth]
  have hcert : ¬ task.certId > 0 := by rw [hNoCert]; decide
  have hrun : runTaskWithoutLog envAllOk st taskId false =
      ⟨setTaskCert
          (updateCertACME
            (createCertRow (updateTaskStatus st taskId ACMETaskStatusRunning) task parseOk)
            (updateTaskStatus st taskId ACMETaskStatusRunning).nextCertId task.id)
          taskId (updateTaskStatus st taskId ACMETaskStatusRunning).nextCertId,
        true, "", (updateTaskStatus st taskId ACMETaskStatusRunning).nextCertId⟩ := by
    unfold runTaskWithoutLog
    simp only [envAllOk, userOk, h, hOn, hstat, hdns,
      Bool.not_true, Bool.false_eq_true, if_false,
      show ("letsencrypt".length == 0) = false from rfl]
    rw [if_neg (show ¬ ((0 : Int) > 0) from by decide)]
    rw [if_neg (show ¬ (("" : String).length > 0) from by decide)]
    rw [if_neg hcert]
    unfold saveCertNew
    rfl
  unfold RunTask
  rw [hrun]
  refine ⟨rfl, rfl, ?_⟩
  have h1 : findEnabledACMETask (updateTaskStatus st taskId ACMETaskStatusRunning) taskId =
      some { task with status := ACMETaskStatusRunning } :=
    findEnabledACMETask_updateTaskStatus st taskId ACMETaskStatusRunning task h
  have h2 : findEnabledACMETask
      (updateCertACME
        (createCertRow (updateTaskStatus st taskId ACMETaskStatusRunning) task parseOk)
        (updateTaskStatus st taskId ACMETaskStatusRunning).nextCertId task.id) taskId =
      some { task with status := ACMETaskStatusRunning } := h1
  have h3 := findEnabledACMETask_setTaskCert _ taskId
    (updateTaskStatus st taskId ACMETaskStatusRunning).nextCertId _ h2
  exact h3

/-- Witness for C1 amended on the concrete store `st0`. -/
theorem C1_amended_witness :
    (findEnabledACMETask st0 1 = some taskA ∧ taskA.isOn = true ∧
      taskA.status ≠ ACMETaskStatusDone ∧ taskA.certId = 0 ∧ taskA.authType = AuthType.http) ∧
    ((RunTask envAllOk st0 1).isOk = true ∧
      (RunTask envAllOk st0 1).certId = st0.nextCertId ∧
      findEnabledACMETask (RunTask envAllOk st0 1).state 1 =
        some { taskA with status := ACMETaskStatusRunning, certId := st0.nextCertId }) :=
  ⟨⟨rfl, rfl, by decide, rfl, rfl⟩,
    C1_amended st0 1 taskA rfl rfl (by decide) rfl rfl⟩

/-- Claim C2, amended: every task returned by the scheduling query is on,
asynchronous, enabled, certificate-free, outside the (normalised) exclusion
list, and created strictly after `now - staleHours` hours at minute
granularity — i.e. within the last `staleHours` hours, a recency filter
rather than the claimed staleness guard. -/
theorem C2_amended (tasks : List ACMETask) (now hour limit : Nat) (excl : List Int)
    (t : ACMETask) (h : t ∈ FindIssueACMETask tasks now hour limit excl) :
    t ∈ tasks ∧ t.isOn = true ∧ t.async = true ∧ t.state = ACMETaskStateEnabled ∧
    t.certId = 0 ∧ minuteOf (now - hour * 3600) < minuteOf t.createdAt ∧
    (effectiveExcludeTasks excl).contains t.id = false := by
  unfold FindIssueACMETask at h
  have hf : t ∈ tasks.filter (issueTaskMatches now hour excl) :=
    mem_sortByIdAsc (List.mem_of_mem_take h)
  have hm := List.mem_filter.1 hf
  have hp := hm.2
  unfold issueTaskMatches at hp
  simp only [Bool.and_eq_true] at hp
  obtain ⟨⟨⟨⟨⟨h1, h2⟩, h3⟩, h4⟩, h5⟩, h6⟩ := hp
  exact ⟨hm.1, h1, h2, by simpa using h3, by simpa using h5, by simpa using h4,
    by simpa using h6⟩

/-- Witness for C2 amended: the query at time `now` with `staleHours = 1`
returns `taskA`, created at that very moment. -/
theorem C2_amended_witness :
    taskA ∈ FindIssueACMETask [taskA] 3600000 1 10 [] ∧
    (taskA ∈ [taskA] ∧ taskA.isOn = true ∧ taskA.async = true ∧
      taskA.state = ACMETaskStateEnabled ∧ taskA.certId = 0 ∧
      minuteOf (3600000 - 1 * 3600) < minuteOf taskA.createdAt ∧
      (effectiveExcludeTasks []).contains taskA.id = false) :=
  ⟨by decide, C2_amended [taskA] 3600000 1 10 [] taskA (by decide)⟩

/-- Claim C3: for a policy certificate list with pairwise distinct ids and a
prior certificate whose id differs from the newly issued one, the prior
certificate's id is absent from the merged, deduplicated reference list
exactly when the issued domains cover all its DNS names and it ends
strictly before the new certificate; a superseded certificate's rows are
disabled in the resulting state; when coverage is not a superset the prior
id stays referenced next to the new id; and a non-superseded certificate's
rows are untouched. -/
theorem C3_supersession (d : List String) (e : Int) (st : EngineState) (l : List SSLCert)
    (resId : Int) (c : SSLCert) (hc : c ∈ l) (hnd : (l.map SSLCert.id).Nodup)
    (hne : c.id ≠ resId) :
    (¬ c.id ∈ (buildCertRefs ((mergePolicyCerts d e st l).2 ++ [resId])).map SSLCertRef.certId
      ↔ supersedes d e c = true) ∧
    (supersedes d e c = true → rowsDisabled (mergePolicyCerts d e st l).1 c.id) ∧
    (ListIsGreaterEqualThanOther d c.dnsNames = false →
      c.id ∈ (buildCertRefs ((mergePolicyCerts d e st l).2 ++ [resId])).map SSLCertRef.certId ∧
      resId ∈ (buildCertRefs ((mergePolicyCerts d e st l).2 ++ [resId])).map SSLCertRef.certId) ∧
    (supersedes d e c = false →
      (mergePolicyCerts d e st l).1.certs.filter (fun r => r.id == c.id) =
        st.certs.filter (fun r => r.id == c.id)) := by
  have hrefs : ∀ x : Int,
      (x ∈ (buildCertRefs ((mergePolicyCerts d e st l).2 ++ [resId])).map SSLCertRef.certId) ↔
        (x ∈ (l.filter (fun u => !supersedes d e u)).map SSLCert.id ∨ x = resId) := by
    intro x
    rw [mem_buildCertRefs, mergePolicyCerts_ids]
    simp
  have hkept_of_not : supersedes d e c = false →
      c.id ∈ (l.filter (fun u => !supersedes d e u)).map SSLCert.id := by
    intro hs
    exact List.mem_map_of_mem SSLCert.id (List.mem_filter.2 ⟨hc, by simp [hs]⟩)
  have hnot_of_sup : supersedes d e c = true →
      ¬ c.id ∈ (l.filter (fun u => !supersedes d e u)).map SSLCert.id := by
    intro hs hmm
    rcases List.mem_map.1 hmm with ⟨u, hu, huid⟩
    have hul : u ∈ l := (List.mem_filter.1 hu).1
    have huns : (!supersedes d e u) = true := (List.mem_filter.1 hu).2
    have hueq : u = c := nodup_certs_id_inj hnd hul hc huid
    rw [hueq, hs] at huns
    simp at huns
  refine ⟨⟨?_, ?_⟩, ?_, ?_, ?_⟩
  · intro hnot
    by_cases hs : supersedes d e c = true
    · exact hs
    · exfalso
      apply hnot
      rw [hrefs]
      exact Or.inl (hkept_of_not (by simpa using hs))
  · intro hs
    rw [hrefs]
    rintro (hmm | hmm)
    · exact hnot_of_sup hs hmm
    · exact hne hmm
  · intro hs
    exact mergePolicyCerts_disables d e l st c hc hs
  · intro hcov
    have hs : supersedes d e c = false := by
      unfold supersedes
      rw [hcov]
      rfl
    constructor
    · rw [hrefs]
      exact Or.inl (hkept_of_not hs)
    · rw [hrefs]
      exact Or.inr rfl
  · intro hs
    apply mergePolicyCerts_preserves
    intro hmm
    rcases List.mem_map.1 hmm with ⟨u, hu, huid⟩
    have hul : u ∈ l := (List.mem_filter.1 hu).1
    have hus : supersedes d e u = true := (List.mem_filter.1 hu).2
    have hueq : u = c := nodup_certs_id_inj hnd hul hc huid
    rw [hueq, hs] at hus
    exact Bool.false_ne_true hus

/-- Witness for C3 at the concrete policy of host 20: the fully covered,
earlier-expiring certificate 9 is dropped exactly per the supersession
test, and its rows are disabled. -/
theorem C3_supersession_witness :
    (¬ oldCertA.id ∈ (buildCertRefs
        ((mergePolicyCerts ["a.example.com"] 999 stSrv [oldCertA, oldCertB]).2 ++ [100])).map
          SSLCertRef.certId
      ↔ supersedes ["a.example.com"] 999 oldCertA = true) ∧
    (supersedes ["a.example.com"] 999 oldCertA = true →
      rowsDisabled (mergePolicyCerts ["a.example.com"] 999 stSrv [oldCertA, oldCertB]).1
        oldCertA.id) :=
  ⟨(C3_supersession ["a.example.com"] 999 stSrv [oldCertA, oldCertB] 100 oldCertA
      (by decide) (by decide) (by decide)).1,
   (C3_supersession ["a.example.com"] 999 stSrv [oldCertA, oldCertB] 100 oldCertA
      (by decide) (by decide) (by decide)).2.1⟩

/-- Claim C5, amended: every invocation that passes the dedup guard appends
exactly one task log row recording the returned outcome; nothing else in
the call touches the log table. -/
theorem C5_amended (env : RunEnv) (st : EngineState) (m : List Int) (taskId : Int)
    (domains : List String) (h : m.contains taskId = false) :
    (RunTaskAndAutoBindServer env st m taskId domains).state.taskLogs =
      st.taskLogs ++ [⟨taskId, (RunTaskAndAutoBindServer env st m taskId domains).isOk,
                       (RunTaskAndAutoBindServer env st m taskId domains).errMsg⟩] := by
  have hc : ¬ (m.contains taskId = true) := by
    rw [h]
    exact Bool.false_ne_true
  have hnm : taskId ∉ m := by simpa using h
  unfold RunTaskAndAutoBindServer
  rw [if_neg hc]
  repeat' (first
    | split
    | simp_all [runTaskWithoutLog_taskLogs, scanDomains_taskLogs,
        foldl_applyServerBinding_taskLogs])

/-- Witness for C5 amended: from the empty in-flight map the successful run
on `st0` appends its single log row. -/
theorem C5_amended_witness :
    ([] : List Int).contains (1 : Int) = false ∧
    (RunTaskAndAutoBindServer envAllOk st0 [] 1 ["a.example.com"]).state.taskLogs =
      st0.taskLogs ++ [⟨1, (RunTaskAndAutoBindServer envAllOk st0 [] 1 ["a.example.com"]).isOk,
                       (RunTaskAndAutoBindServer envAllOk st0 [] 1 ["a.example.com"]).errMsg⟩] :=
  ⟨rfl, C5_amended envAllOk st0 [] 1 ["a.example.com"] rfl⟩

/-- Claim C7, amended: the rewritten policy keeps every prior setting except
the cipher-suite list — HTTP/2 and HTTP/3 flags, minimum version, HSTS,
OCSP flag, client-auth type, client CA certificates and the cipher-suites
flag are forwarded unchanged, the reference list is replaced by the merged
one, and the cipher-suite list is overwritten with the empty list (the call
site passes nil). -/
theorem C7_amended (policy : SSLPolicyRec) (certRefs : List SSLCertRef)
    (hO : policy.ocspIsOn = 0 ∨ policy.ocspIsOn = 1)
    (hC : policy.cipherSuitesIsOn = 0 ∨ policy.cipherSuitesIsOn = 1) :
    (bindUpdatePolicy policy certRefs).id = policy.id ∧
    (bindUpdatePolicy policy certRefs).http2Enabled = policy.http2Enabled ∧
    (bindUpdatePolicy policy certRefs).http3Enabled = policy.http3Enabled ∧
    (bindUpdatePolicy policy certRefs).minVersion = policy.minVersion ∧
    (bindUpdatePolicy policy certRefs).hsts = policy.hsts ∧
    (bindUpdatePolicy policy certRefs).ocspIsOn = policy.ocspIsOn ∧
    (bindUpdatePolicy policy certRefs).clientAuthType = policy.clientAuthType ∧
    (bindUpdatePolicy policy certRefs).clientCACerts = policy.clientCACerts ∧
    (bindUpdatePolicy policy certRefs).cipherSuitesIsOn = policy.cipherSuitesIsOn ∧
    (bindUpdatePolicy policy certRefs).certRefs = certRefs ∧
    (bindUpdatePolicy policy certRefs).cipherSuites = [] := by
  unfold bindUpdatePolicy SSLPolicyUpdate
  refine ⟨rfl, rfl, rfl, rfl, rfl, ?_, rfl, rfl, ?_, rfl, rfl⟩
  · rcases hO with h0 | h0 <;> simp [h0]
  · rcases hC with h0 | h0 <;> simp [h0]

/-- Witness for C7 amended at the concrete policy of host 20. -/
theorem C7_amended_witness :
    (bindUpdatePolicy polA [⟨true, 100⟩]).ocspIsOn = polA.ocspIsOn ∧
    (bindUpdatePolicy polA [⟨true, 100⟩]).cipherSuitesIsOn = polA.cipherSuitesIsOn :=
  ⟨(C7_amended polA [⟨true, 100⟩] (Or.inr rfl) (Or.inr rfl)).2.2.2.2.2.1,
   (C7_amended polA [⟨true, 100⟩] (Or.inr rfl) (Or.inr rfl)).2.2.2.2.2.2.2.2.1⟩

/-- Claim C8, amended: `CreateACMETask` rejects nothing — every call,
including one with an empty domain list, persists exactly one new enabled,
pending, certificate-free task whose `domains` column is always a JSON
array (the empty array when the list is empty, never NULL), and returns the
fresh id. -/
theorem C8_amended (st : EngineState) (now : Nat) (adminId userId : Int)
    (authType : AuthType) (acmeUserId dnsProviderId : Int) (dnsDomain : String)
    (domains : List String) (autoRenew : Bool) (authURL : String) (async : Bool) :
    ∃ t : ACMETask,
      (CreateACMETask st now adminId userId authType acmeUserId dnsProviderId dnsDomain
        domains autoRenew authURL async).1.tasks = st.tasks ++ [t] ∧
      (CreateACMETask st now adminId userId authType acmeUserId dnsProviderId dnsDomain
        domains autoRenew authURL async).2 = st.nextTaskId ∧
      t.id = st.nextTaskId ∧
      t.domains = some (if domains.length > 0 then domains else []) ∧
      t.domains ≠ none ∧
      t.isOn = true ∧ t.state = ACMETaskStateEnabled ∧
      t.status = ACMETaskStatusPending ∧ t.certId = 0 ∧ t.async = async := by
  refine ⟨_, rfl, rfl, rfl, ?_, ?_, rfl, rfl, rfl, rfl, rfl⟩
  · show (if domains.length > 0 then some domains else some []) =
      some (if domains.length > 0 then domains else [])
    by_cases hd : domains.length > 0 <;> simp [hd]
  · show (if domains.length > 0 then some domains else some []) ≠ none
    by_cases hd : domains.length > 0 <;> simp [hd]

end GoedgeACME
